import Mathlib

/-!
Verification of the whisper-api request lifecycle (src/app.py) against its
natural-language specification.

The embedding models the single Flask handler module:
  - configuration constants (lines 55-57 of app.py),
  - the upload validator allowed_file (lines 66-67),
  - the sanitizer secure_filename imported from werkzeug (used at line 96),
  - the POST /transcribe handler transcribe_audio (lines 69-157) as a pure
    function over an abstract filesystem (a list of stored paths) and an
    abstract engine outcome,
  - the GET /health handler health_check (lines 159-185),
  - an interleaving semantics for concurrent handler threads, since the app
    is started with threaded request handling (line 189).

Machine floats of the source (elapsed times, memory figures) are abstracted
to natural numbers; file contents are abstracted to strings.
-/

/-- Abstract JSON values, the shape of every response body built by jsonify. -/
inductive JsonVal where
  | str (s : String)
  | int (n : Int)
  | bool (b : Bool)
  | null
  | obj (fields : List (String × JsonVal))
  | arr (elems : List JsonVal)

/-- Keys of a JSON object (empty for non-objects). -/
def jsonKeys : JsonVal → List String
  | JsonVal.obj fields => fields.map Prod.fst
  | _ => []

/-- Field lookup in a JSON object, first match wins, as jsonify dict access. -/
def lookupKey (j : JsonVal) (k : String) : Option JsonVal :=
  match j with
  | JsonVal.obj fields => List.lookup k fields
  | _ => none

/-- Whether a JSON object carries the given top-level key. -/
def hasKey (j : JsonVal) (k : String) : Bool :=
  match j with
  | JsonVal.obj fields => fields.any (fun kv => kv.fst == k)
  | _ => false

/-- Line 55 of app.py: UPLOAD_FOLDER = the literal uploads. -/
def UPLOAD_FOLDER : String := "uploads"

/-- Line 56 of app.py: the set of allowed extensions. -/
def ALLOWED_EXTENSIONS : List String := ["wav", "mp3", "m4a", "flac", "ogg"]

/-- Line 57 of app.py: MAX_CONTENT_LENGTH = 50 * 1024 * 1024 bytes. -/
def MAX_CONTENT_LENGTH : Nat := 50 * 1024 * 1024

/-- Line 50 of app.py: the model name passed to whisper.load_model. -/
def LOADED_MODEL_NAME : String := "turbo"

/-- Line 45 of app.py: DEVICE is cuda when CUDA is available at startup,
cpu otherwise; computed once at startup and never reassigned. -/
def DEVICE (cudaAvailableAtStartup : Bool) : String :=
  if cudaAvailableAtStartup then "cuda" else "cpu"

/-- Characters after the last dot of a list, none when no dot occurs.
This is the Python expression filename.rsplit with separator dot and
maxsplit 1, component 1, guarded by the membership test for the dot. -/
def afterLastDot : List Char → Option (List Char)
  | [] => none
  | c :: rest =>
    match afterLastDot rest with
    | some e => some e
    | none => if c = '.' then some rest else none

/-- Lines 66-67 of app.py: allowed_file checks that a dot occurs in the
filename and that the lowercased text after the last dot is an allowed
extension. Python str.lower is modelled by Char.toLower, which agrees with
it on ASCII, the only alphabet the allowed set can match. -/
def allowed_file (filename : String) : Bool :=
  match afterLastDot filename.data with
  | some ext => ALLOWED_EXTENSIONS.contains (String.mk (ext.map Char.toLower))
  | none => false

/-- Characters kept by the werkzeug sanitizer: ASCII alphanumerics, the
underscore, the dot and the hyphen. -/
def isSecureChar (c : Char) : Bool :=
  c.isAlphanum || c = '_' || c = '.' || c = '-'

/-- Splitting on whitespace runs, dropping empty words, as Python str.split
with no argument. -/
def splitWsAux (l : List Char) (acc : List Char) : List (List Char) :=
  match l with
  | [] => if acc = [] then [] else [acc.reverse]
  | c :: rest =>
    if c.isWhitespace then
      if acc = [] then splitWsAux rest [] else acc.reverse :: splitWsAux rest []
    else splitWsAux rest (c :: acc)

/-- Dropping leading and trailing dots and underscores, as str.strip applied
to the two-character set of dot and underscore. -/
def stripDotsUnderscores (l : List Char) : List Char :=
  ((l.dropWhile (fun c => c = '.' || c = '_')).reverse.dropWhile
    (fun c => c = '.' || c = '_')).reverse

/-- Embedding of werkzeug.utils.secure_filename, used at line 96 of app.py:
path separators become spaces, whitespace-separated words are joined with
underscores, characters outside the secure set are dropped, and leading or
trailing dots and underscores are stripped. Unicode NFKD normalization is
abstracted to the ASCII filter, and the Windows-only reserved-name prefix
is omitted. -/
def secure_filename (s : String) : String :=
  let replaced := s.data.map (fun c => if c = '/' || c = '\\' then ' ' else c)
  let words := splitWsAux replaced []
  let joined := List.intercalate ['_'] words
  String.mk (stripDotsUnderscores (joined.filter isSecureChar))

/-- Line 97 of app.py: the destination path is os.path.join of the upload
folder and the sanitized filename. -/
def filepathFor (filename : String) : String :=
  UPLOAD_FOLDER ++ "/" ++ secure_filename filename

/-- A multipart upload request as the handler sees it: whether the form has
a file part, the untrusted original filename, the abstracted byte content,
and the body size in bytes as seen by the HTTP boundary layer. -/
structure UploadRequest where
  hasFilePart : Bool
  filename : String
  content : String
  contentLength : Nat
deriving DecidableEq

/-- The path the handler stores the upload of a request under (line 97). -/
def pathOfRequest (req : UploadRequest) : String :=
  filepathFor req.filename

/-- Result of model.transcribe when the engine returns normally:
text, segments and language, as read at lines 132-134 of app.py. -/
structure TranscriptionResult where
  text : String
  segments : List JsonVal
  language : String

/-- Behaviour of the opaque engine on one call: either a normal result or a
raised exception with its message (the engine is external; both outcomes
are possible and the handler must cope with each). -/
inductive EngineOutcome where
  | ok (r : TranscriptionResult)
  | raise (msg : String)

/-- Model of traceback.format_exc for the raised message (line 156). -/
def format_exc (msg : String) : String :=
  "Traceback (most recent call last): " ++ msg

/-- The storage root as the list of stored paths. Writing a path that is
already present overwrites it (file.save semantics, line 107). -/
def fsSave (fs : List String) (p : String) : List String :=
  if fs.contains p then fs else p :: fs

/-- Deleting a path from the storage root (os.remove, lines 124 and 149). -/
def fsRemove (fs : List String) (p : String) : List String :=
  fs.filter (fun q => q != p)

/-- Outcome of one handler run: HTTP status, JSON body, the storage root
after the run, and how many times model.transcribe was invoked. -/
structure HandlerResult where
  status : Nat
  body : JsonVal
  fs : List String
  engineCalls : Nat

/-- Lines 69-157 of app.py: the POST /transcribe handler.
Validation (lines 76-87) runs before any filesystem access; on success the
upload is saved under filepathFor (lines 96-107, the post-save existence
check at line 110 passes because fsSave always writes), the engine is
called once (line 119), the temp file is removed (line 124) and a 200 body
is built (lines 131-139). When the engine raises, the except block
(lines 141-157) removes the temp file if present and builds a 500 body
with error and traceback fields. Elapsed times are passed in as abstract
clock readings; filesystem operations themselves are modelled as
succeeding, matching the paths the claims quantify over. -/
def transcribe_audio (req : UploadRequest) (engine : EngineOutcome)
    (transcribeTime totalTime : Nat) (fs : List String) : HandlerResult :=
  if req.hasFilePart = false then
    ⟨400, JsonVal.obj [("error", JsonVal.str "No file provided")], fs, 0⟩
  else if req.filename = "" then
    ⟨400, JsonVal.obj [("error", JsonVal.str "No file selected")], fs, 0⟩
  else if allowed_file req.filename = false then
    ⟨400, JsonVal.obj [("error", JsonVal.str "File type not allowed")], fs, 0⟩
  else
    let filepath := filepathFor req.filename
    let fs1 := fsSave fs filepath
    match engine with
    | EngineOutcome.ok r =>
      ⟨200,
        JsonVal.obj
          [("text", JsonVal.str r.text),
           ("segments", JsonVal.arr r.segments),
           ("language", JsonVal.str r.language),
           ("processing_time",
             JsonVal.obj
               [("transcribe", JsonVal.int transcribeTime),
                ("total", JsonVal.int totalTime)])],
        fsRemove fs1 filepath, 1⟩
    | EngineOutcome.raise msg =>
      ⟨500,
        JsonVal.obj
          [("error", JsonVal.str msg),
           ("traceback", JsonVal.str (format_exc msg))],
        fsRemove fs1 filepath, 1⟩

/-- Modelled from the spec: the oversize rejection is performed by the
framework boundary layer (Flask reading the configured MAX_CONTENT_LENGTH
set at line 64 of app.py), which is not part of the repository source.
Per the spec, a request whose body exceeds the configured maximum is
rejected with an oversize error before the handler runs, so before any
storage or engine work; otherwise the request is handed to the handler
unchanged. -/
def boundary (req : UploadRequest) (engine : EngineOutcome)
    (transcribeTime totalTime : Nat) (fs : List String) : HandlerResult :=
  if req.contentLength > MAX_CONTENT_LENGTH then
    ⟨413, JsonVal.obj [("error", JsonVal.str "Request Entity Too Large")], fs, 0⟩
  else transcribe_audio req engine transcribeTime totalTime fs

/-- Request-time GPU facts read by the health endpoint from torch. -/
structure GpuState where
  available : Bool
  deviceCount : Nat
  deviceName : String
  memAllocated : Nat
  memReserved : Nat

/-- Megabyte rendering of a byte count; the two-decimal float formatting of
lines 170-171 of app.py is abstracted to integer megabytes. -/
def formatMB (bytes : Nat) : String :=
  toString (bytes / (1024 * 1024)) ++ "MB"

/-- Lines 161-165 of app.py: the gpu_info object. -/
def gpu_info_json (g : GpuState) : JsonVal :=
  JsonVal.obj
    [("available", JsonVal.bool g.available),
     ("device_count", JsonVal.int (if g.available then (g.deviceCount : Int) else 0)),
     ("device_name", if g.available then JsonVal.str g.deviceName else JsonVal.null)]

/-- Lines 167-172 of app.py: memory_info is the empty object unless a GPU
is available. -/
def memory_info_json (g : GpuState) : JsonVal :=
  if g.available then
    JsonVal.obj
      [("allocated", JsonVal.str (formatMB g.memAllocated)),
       ("cached", JsonVal.str (formatMB g.memReserved))]
  else JsonVal.obj []

/-- Lines 159-185 of app.py: the GET /health handler. It always returns
status 200 (the jsonify default) with the status_info object of
lines 174-182; the device field uses the startup DEVICE constant and the
uptime field is the elapsed time since the startup timestamp, passed in as
an abstract reading. -/
def health_check (startupGpu : Bool) (g : GpuState) (uptime : Nat)
    (timestamp : String) : Nat × JsonVal :=
  (200,
    JsonVal.obj
      [("status", JsonVal.str "healthy"),
       ("model", JsonVal.str "whisper-large"),
       ("device", JsonVal.str (DEVICE startupGpu)),
       ("gpu_info", gpu_info_json g),
       ("memory_info", memory_info_json g),
       ("uptime", JsonVal.int uptime),
       ("timestamp", JsonVal.str timestamp)])

/-- Phases of one /transcribe worker thread through the handler body, in
source order: ready (request received, line 70), validated (past the checks
of lines 76-87), saved (past file.save, line 107), transcribing (inside the
model.transcribe call of line 119, the engine call is in flight), cleaned
(past os.remove, line 124), responded (response returned, line 131). -/
inductive Phase where
  | ready
  | validated
  | saved
  | transcribing
  | cleaned
  | responded
deriving DecidableEq

/-- One step of a thread through the handler. The source takes no lock at
any point of the handler, in particular none before entering
model.transcribe, so every step is always enabled: no phase waits on the
state of any other thread. -/
def stepPhase : Phase → Phase
  | Phase.ready => Phase.validated
  | Phase.validated => Phase.saved
  | Phase.saved => Phase.transcribing
  | Phase.transcribing => Phase.cleaned
  | Phase.cleaned => Phase.responded
  | Phase.responded => Phase.responded

/-- A system state is one phase per concurrent request thread; a scheduler
step advances the chosen thread (app.run with threaded handling, line 189,
serves each request on its own thread and interleaves them freely). -/
def stepSys (s : List Phase) (i : Nat) : List Phase :=
  s.set i (stepPhase (s.getD i Phase.responded))

/-- Running a schedule, a list of thread indices, from a state. -/
def runSched (s : List Phase) : List Nat → List Phase
  | [] => s
  | i :: rest => runSched (stepSys s i) rest

/-- Initial state for n concurrent requests: every thread at ready. -/
def initState (n : Nat) : List Phase :=
  List.replicate n Phase.ready

/-- Number of threads currently inside the model.transcribe call. -/
def inFlight (s : List Phase) : Nat :=
  (s.filter (fun p => p = Phase.transcribing)).length

/-- States reachable from n concurrent requests under some schedule. -/
def reachableState (n : Nat) (s : List Phase) : Prop :=
  ∃ sched, runSched (initState n) sched = s

/-! Helper lemmas about afterLastDot, the last-dot splitter behind
allowed_file. -/

theorem afterLastDot_eq_none_of_not_mem (l : List Char) (h : ('.' : Char) ∉ l) :
    afterLastDot l = none := by
  induction l with
  | nil => rfl
  | cons c rest ih =>
    have h1 : c ≠ '.' := by
      intro hc
      exact h (hc ▸ List.mem_cons_self c rest)
    have h2 : ('.' : Char) ∉ rest := fun hm => h (List.mem_cons_of_mem c hm)
    simp [afterLastDot, ih h2, h1]

theorem not_mem_of_afterLastDot_eq_none (l : List Char)
    (h : afterLastDot l = none) : ('.' : Char) ∉ l := by
  induction l with
  | nil => simp
  | cons c rest ih =>
    rw [afterLastDot] at h
    cases hr : afterLastDot rest with
    | some e => rw [hr] at h; simp at h
    | none =>
      rw [hr] at h
      simp only at h
      have hc : ¬ c = '.' := by
        intro hc
        rw [if_pos hc] at h
        exact Option.noConfusion h
      intro hmem
      rcases List.mem_cons.mp hmem with h1 | h1
      · exact hc h1.symm
      · exact ih hr h1

theorem afterLastDot_append (pre e : List Char) (h : ('.' : Char) ∉ e) :
    afterLastDot (pre ++ '.' :: e) = some e := by
  induction pre with
  | nil =>
    simp [afterLastDot, afterLastDot_eq_none_of_not_mem e h]
  | cons c pre ih =>
    simp only [List.cons_append, afterLastDot, List.append_eq, ih]

theorem afterLastDot_some (l : List Char) : ∀ e : List Char,
    afterLastDot l = some e → ∃ pre, l = pre ++ '.' :: e ∧ ('.' : Char) ∉ e := by
  induction l with
  | nil => intro e h; exact Option.noConfusion h
  | cons c rest ih =>
    intro e h
    rw [afterLastDot] at h
    cases hr : afterLastDot rest with
    | some e2 =>
      rw [hr] at h
      simp only [Option.some.injEq] at h
      obtain ⟨pre, hp, hd⟩ := ih e2 hr
      exact ⟨c :: pre, by rw [hp, h, List.cons_append], h ▸ hd⟩
    | none =>
      rw [hr] at h
      simp only at h
      by_cases hc : c = '.'
      · rw [if_pos hc] at h
        have he : rest = e := Option.some.inj h
        refine ⟨[], ?_, he ▸ not_mem_of_afterLastDot_eq_none rest hr⟩
        rw [List.nil_append, hc, he]
      · rw [if_neg hc] at h
        exact Option.noConfusion h

/-- C5: the upload filename check accepts a filename exactly when it has a
dot followed by a non-empty suffix (the part after the last dot) whose
lowercase form is in the allowed set, and the check is case-insensitive: two
filenames with the same stem whose extensions agree up to character case
validate identically. -/
theorem allowed_file_spec :
    (∀ f : String, allowed_file f = true ↔
      ∃ pre ext, f.data = pre ++ '.' :: ext ∧ ext ≠ [] ∧ ('.' : Char) ∉ ext
        ∧ ALLOWED_EXTENSIONS.contains (String.mk (ext.map Char.toLower)) = true)
    ∧ (∀ pre ext1 ext2 : List Char, ('.' : Char) ∉ ext1 → ('.' : Char) ∉ ext2 →
        ext1.map Char.toLower = ext2.map Char.toLower →
        allowed_file (String.mk (pre ++ '.' :: ext1))
          = allowed_file (String.mk (pre ++ '.' :: ext2))) := by
  constructor
  · intro f
    constructor
    · intro h
      rw [allowed_file] at h
      cases hr : afterLastDot f.data with
      | none => rw [hr] at h; exact Bool.noConfusion h
      | some ext =>
        rw [hr] at h
        obtain ⟨pre, hp, hd⟩ := afterLastDot_some f.data ext hr
        refine ⟨pre, ext, hp, ?_, hd, h⟩
        intro h0
        rw [h0] at h
        exact Bool.noConfusion h
    · rintro ⟨pre, ext, hp, -, hd, hmem⟩
      rw [allowed_file, hp, afterLastDot_append pre ext hd]
      exact hmem
  · intro pre ext1 ext2 h1 h2 hcase
    rw [allowed_file, allowed_file]
    show (match afterLastDot (pre ++ '.' :: ext1) with
      | some ext => ALLOWED_EXTENSIONS.contains (String.mk (ext.map Char.toLower))
      | none => false)
      = (match afterLastDot (pre ++ '.' :: ext2) with
      | some ext => ALLOWED_EXTENSIONS.contains (String.mk (ext.map Char.toLower))
      | none => false)
    rw [afterLastDot_append pre ext1 h1, afterLastDot_append pre ext2 h2]
    simp only [hcase]

/-- Witness for allowed_file_spec: case-insensitivity applied to the
concrete extensions WAV and wav over the stem x. -/
theorem allowed_file_spec_witness :
    allowed_file (String.mk (['x'] ++ '.' :: ['W', 'A', 'V']))
      = allowed_file (String.mk (['x'] ++ '.' :: ['w', 'a', 'v'])) :=
  allowed_file_spec.2 ['x'] ['W', 'A', 'V'] ['w', 'a', 'v']
    (by decide) (by decide) (by decide)

/-! Helper lemma: removal really empties the path from the storage root. -/

theorem not_mem_fsRemove (fs : List String) (p : String) : p ∉ fsRemove fs p := by
  simp [fsRemove, List.mem_filter]

/-- C2: for every request that passes validation (so its upload is written
to the storage root), the handler deletes the stored temporary file before
returning its response, on the success path and on every engine-failure
path alike, and afterwards the storage root holds no file of that request. -/
theorem temp_file_removed_on_all_paths (req : UploadRequest)
    (engine : EngineOutcome) (transcribeTime totalTime : Nat) (fs : List String)
    (hpart : req.hasFilePart = true) (hname : req.filename ≠ "")
    (hext : allowed_file req.filename = true) :
    (transcribe_audio req engine transcribeTime totalTime fs).fs
        = fsRemove (fsSave fs (pathOfRequest req)) (pathOfRequest req)
      ∧ pathOfRequest req ∉ (transcribe_audio req engine transcribeTime totalTime fs).fs := by
  cases engine with
  | ok r =>
    refine ⟨?_, ?_⟩ <;>
      simp [transcribe_audio, hpart, hname, hext, pathOfRequest,
        not_mem_fsRemove, fsRemove, List.mem_filter]
  | raise msg =>
    refine ⟨?_, ?_⟩ <;>
      simp [transcribe_audio, hpart, hname, hext, pathOfRequest,
        not_mem_fsRemove, fsRemove, List.mem_filter]

/-- Witness for temp_file_removed_on_all_paths at the concrete upload
a.wav with an engine that raises. -/
theorem temp_file_removed_witness :
    (transcribe_audio ⟨true, "a.wav", "bytes", 5⟩ (EngineOutcome.raise "boom")
        1 2 ["uploads/a.wav", "uploads/other.mp3"]).fs
      = fsRemove (fsSave ["uploads/a.wav", "uploads/other.mp3"]
          (pathOfRequest ⟨true, "a.wav", "bytes", 5⟩))
          (pathOfRequest ⟨true, "a.wav", "bytes", 5⟩)
    ∧ pathOfRequest ⟨true, "a.wav", "bytes", 5⟩
        ∉ (transcribe_audio ⟨true, "a.wav", "bytes", 5⟩
            (EngineOutcome.raise "boom") 1 2
            ["uploads/a.wav", "uploads/other.mp3"]).fs :=
  temp_file_removed_on_all_paths ⟨true, "a.wav", "bytes", 5⟩
    (EngineOutcome.raise "boom") 1 2 ["uploads/a.wav", "uploads/other.mp3"]
    rfl (by decide) (by decide)

/-- C4: every request that fails validation (missing file part, empty
filename, or disallowed extension) gets status 400, leaves the storage root
untouched and never invokes the engine. -/
theorem validation_failure_no_storage_no_engine (req : UploadRequest)
    (engine : EngineOutcome) (transcribeTime totalTime : Nat) (fs : List String)
    (h : req.hasFilePart = false ∨ req.filename = ""
      ∨ allowed_file req.filename = false) :
    (transcribe_audio req engine transcribeTime totalTime fs).status = 400
      ∧ (transcribe_audio req engine transcribeTime totalTime fs).fs = fs
      ∧ (transcribe_audio req engine transcribeTime totalTime fs).engineCalls = 0 := by
  rcases h with h | h | h
  · simp [transcribe_audio, h]
  · by_cases hp : req.hasFilePart = false
    · simp [transcribe_audio, hp]
    · simp [transcribe_audio, hp, h]
  · by_cases hp : req.hasFilePart = false
    · simp [transcribe_audio, hp]
    · by_cases hn : req.filename = ""
      · simp [transcribe_audio, hp, hn]
      · simp [transcribe_audio, hp, hn, h]

/-- Witness for validation_failure_no_storage_no_engine at the concrete
disallowed upload notes.txt. -/
theorem validation_failure_witness :
    (transcribe_audio ⟨true, "notes.txt", "bytes", 7⟩
        (EngineOutcome.raise "never") 1 2 []).status = 400
      ∧ (transcribe_audio ⟨true, "notes.txt", "bytes", 7⟩
          (EngineOutcome.raise "never") 1 2 []).fs = []
      ∧ (transcribe_audio ⟨true, "notes.txt", "bytes", 7⟩
          (EngineOutcome.raise "never") 1 2 []).engineCalls = 0 :=
  validation_failure_no_storage_no_engine ⟨true, "notes.txt", "bytes", 7⟩
    (EngineOutcome.raise "never") 1 2 [] (Or.inr (Or.inr (by decide)))

/-- C6: when the engine raises after the upload was stored, the handler
catches the exception and answers with status 500 and a body that carries
an error field and a traceback field but no text field. -/
theorem engine_exception_caught (req : UploadRequest) (msg : String)
    (transcribeTime totalTime : Nat) (fs : List String)
    (hpart : req.hasFilePart = true) (hname : req.filename ≠ "")
    (hext : allowed_file req.filename = true) :
    (transcribe_audio req (EngineOutcome.raise msg) transcribeTime totalTime fs).status = 500
      ∧ (transcribe_audio req (EngineOutcome.raise msg) transcribeTime totalTime fs).body
          = JsonVal.obj [("error", JsonVal.str msg),
              ("traceback", JsonVal.str (format_exc msg))]
      ∧ hasKey (transcribe_audio req (EngineOutcome.raise msg)
          transcribeTime totalTime fs).body "error" = true
      ∧ hasKey (transcribe_audio req (EngineOutcome.raise msg)
          transcribeTime totalTime fs).body "text" = false := by
  refine ⟨?_, ?_, ?_, ?_⟩ <;>
    simp [transcribe_audio, hpart, hname, hext, hasKey]

/-- Witness for engine_exception_caught at the concrete upload a.wav and a
concrete raised message. -/
theorem engine_exception_caught_witness :
    (transcribe_audio ⟨true, "a.wav", "bytes", 5⟩ (EngineOutcome.raise "cuda out of memory")
        1 2 []).status = 500
      ∧ (transcribe_audio ⟨true, "a.wav", "bytes", 5⟩ (EngineOutcome.raise "cuda out of memory")
          1 2 []).body
          = JsonVal.obj [("error", JsonVal.str "cuda out of memory"),
              ("traceback", JsonVal.str (format_exc "cuda out of memory"))]
      ∧ hasKey (transcribe_audio ⟨true, "a.wav", "bytes", 5⟩
          (EngineOutcome.raise "cuda out of memory") 1 2 []).body "error" = true
      ∧ hasKey (transcribe_audio ⟨true, "a.wav", "bytes", 5⟩
          (EngineOutcome.raise "cuda out of memory") 1 2 []).body "text" = false :=
  engine_exception_caught ⟨true, "a.wav", "bytes", 5⟩ "cuda out of memory"
    1 2 [] rfl (by decide) (by decide)

/-- C1 counterexample: the claimed serialization invariant fails. The
handler takes no lock around the engine call, so for two concurrent
requests the schedule that advances thread 0 into model.transcribe and
then thread 1 into model.transcribe reaches a state with two in-flight
engine calls. -/
theorem engine_serialization_cex :
    ¬ (∀ (n : Nat) (s : List Phase), reachableState n s → inFlight s ≤ 1) :=
  fun h =>
    absurd
      (h 2 (runSched (initState 2) [0, 0, 0, 1, 1, 1])
        ⟨[0, 0, 0, 1, 1, 1], rfl⟩)
      (by decide)

/-- C1 amended: engine calls are not serialized; with threaded request
handling a state in which two model.transcribe invocations are
simultaneously in flight is reachable for two concurrent requests. -/
theorem engine_calls_can_overlap :
    ∃ s : List Phase, reachableState 2 s ∧ inFlight s = 2 :=
  ⟨runSched (initState 2) [0, 0, 0, 1, 1, 1],
    ⟨[0, 0, 0, 1, 1, 1], rfl⟩, by decide⟩

/-- C3 counterexample: two distinct concurrent requests carrying the same
original filename a.wav are stored under one and the same path
uploads/a.wav; the store does not allocate per-request collision-safe
paths. -/
theorem stored_path_collision_cex :
    (⟨true, "a.wav", "first upload", 3⟩ : UploadRequest)
        ≠ (⟨true, "a.wav", "second upload", 4⟩ : UploadRequest)
      ∧ pathOfRequest ⟨true, "a.wav", "first upload", 3⟩
          = pathOfRequest ⟨true, "a.wav", "second upload", 4⟩
      ∧ pathOfRequest ⟨true, "a.wav", "first upload", 3⟩ = "uploads/a.wav" := by
  refine ⟨by decide, rfl, by decide⟩

/-- C3 amended: the stored path is a deterministic function of the uploaded
filename alone, namely the upload folder joined with the sanitized
filename, so any two requests with equal filenames receive the same path;
no collision resolution takes place. -/
theorem stored_path_depends_only_on_filename (r1 r2 : UploadRequest)
    (h : r1.filename = r2.filename) :
    pathOfRequest r1 = pathOfRequest r2 := by
  simp [pathOfRequest, filepathFor, h]

/-- Witness for stored_path_depends_only_on_filename at two concrete
distinct requests sharing the filename b.mp3. -/
theorem stored_path_witness :
    pathOfRequest ⟨true, "b.mp3", "x", 1⟩ = pathOfRequest ⟨true, "b.mp3", "y", 2⟩ :=
  stored_path_depends_only_on_filename ⟨true, "b.mp3", "x", 1⟩
    ⟨true, "b.mp3", "y", 2⟩ rfl

/-- C7: every health request answers with status 200, and when no GPU is
present the body reports that as a valid state: gpu_info has available
false, device_count 0 and device_name null, and memory_info is the empty
object. -/
theorem health_always_200_and_no_gpu_shape (startupGpu : Bool) (g : GpuState)
    (uptime : Nat) (ts : String) :
    (health_check startupGpu g uptime ts).1 = 200
      ∧ (g.available = false →
          (health_check startupGpu g uptime ts).2
            = JsonVal.obj
                [("status", JsonVal.str "healthy"),
                 ("model", JsonVal.str "whisper-large"),
                 ("device", JsonVal.str (DEVICE startupGpu)),
                 ("gpu_info", JsonVal.obj
                    [("available", JsonVal.bool false),
                     ("device_count", JsonVal.int 0),
                     ("device_name", JsonVal.null)]),
                 ("memory_info", JsonVal.obj []),
                 ("uptime", JsonVal.int uptime),
                 ("timestamp", JsonVal.str ts)]) := by
  refine ⟨rfl, fun h => ?_⟩
  simp [health_check, gpu_info_json, memory_info_json, h]

/-- Witness for health_always_200_and_no_gpu_shape at a concrete
GPU-less state. -/
theorem health_no_gpu_witness :
    (health_check false ⟨false, 0, "", 0, 0⟩ 9 "2026-10-12T00:00:00").2
      = JsonVal.obj
          [("status", JsonVal.str "healthy"),
           ("model", JsonVal.str "whisper-large"),
           ("device", JsonVal.str (DEVICE false)),
           ("gpu_info", JsonVal.obj
              [("available", JsonVal.bool false),
               ("device_count", JsonVal.int 0),
               ("device_name", JsonVal.null)]),
           ("memory_info", JsonVal.obj []),
           ("uptime", JsonVal.int 9),
           ("timestamp", JsonVal.str "2026-10-12T00:00:00")] :=
  (health_always_200_and_no_gpu_shape false ⟨false, 0, "", 0, 0⟩ 9
    "2026-10-12T00:00:00").2 rfl

/-- C8 counterexample: the health body has no field named uptime_seconds;
its keys are status, model, device, gpu_info, memory_info, uptime and
timestamp, so the claimed field list is wrong in the uptime key. -/
theorem health_keys_cex :
    jsonKeys (health_check false ⟨false, 0, "", 0, 0⟩ 0 "t").2
        = ["status", "model", "device", "gpu_info", "memory_info",
           "uptime", "timestamp"]
      ∧ "uptime_seconds"
          ∉ jsonKeys (health_check false ⟨false, 0, "", 0, 0⟩ 0 "t").2 := by
  refine ⟨by decide, by decide⟩

/-- C8 amended: for every health request the body contains exactly the
fields status, model, device, gpu_info (with available, device_count and
device_name), memory_info (populated only when a GPU is present), uptime
and timestamp. -/
theorem health_body_fields (startupGpu : Bool) (g : GpuState) (uptime : Nat)
    (ts : String) :
    jsonKeys (health_check startupGpu g uptime ts).2
        = ["status", "model", "device", "gpu_info", "memory_info",
           "uptime", "timestamp"]
      ∧ jsonKeys (gpu_info_json g) = ["available", "device_count", "device_name"]
      ∧ (g.available = false → memory_info_json g = JsonVal.obj [])
      ∧ (g.available = true →
          jsonKeys (memory_info_json g) = ["allocated", "cached"]) := by
  refine ⟨rfl, rfl, fun h => ?_, fun h => ?_⟩ <;>
    simp [memory_info_json, jsonKeys, h]

/-- Witness for health_body_fields: the memory_info object is empty at a
concrete GPU-less state. -/
theorem health_body_fields_witness :
    memory_info_json ⟨false, 0, "", 0, 0⟩ = JsonVal.obj [] :=
  (health_body_fields false ⟨false, 0, "", 0, 0⟩ 0 "t").2.2.1 rfl

/-- C9: the configured maximum is exactly 50 MiB; a request whose body
exceeds it is answered by the boundary layer with the oversize error while
the storage root is untouched and the engine is never invoked, and a
request at or under the maximum is passed to the handler unchanged, so it
is never rejected for size. -/
theorem oversize_rejected_at_boundary (req : UploadRequest)
    (engine : EngineOutcome) (transcribeTime totalTime : Nat) (fs : List String) :
    MAX_CONTENT_LENGTH = 52428800
      ∧ (req.contentLength > MAX_CONTENT_LENGTH →
          (boundary req engine transcribeTime totalTime fs).status = 413
            ∧ (boundary req engine transcribeTime totalTime fs).fs = fs
            ∧ (boundary req engine transcribeTime totalTime fs).engineCalls = 0)
      ∧ (req.contentLength ≤ MAX_CONTENT_LENGTH →
          boundary req engine transcribeTime totalTime fs
            = transcribe_audio req engine transcribeTime totalTime fs) := by
  refine ⟨rfl, fun h => ?_, fun h => ?_⟩
  · refine ⟨?_, ?_, ?_⟩ <;> simp [boundary, h]
  · simp [boundary, Nat.not_lt.mpr h]

/-- Witness for oversize_rejected_at_boundary: a concrete request one byte
over the limit is rejected with the oversize status. -/
theorem oversize_rejected_witness :
    (boundary ⟨true, "a.wav", "big", 52428801⟩ (EngineOutcome.raise "never")
        1 2 []).status = 413
      ∧ (boundary ⟨true, "a.wav", "big", 52428801⟩ (EngineOutcome.raise "never")
          1 2 []).fs = []
      ∧ (boundary ⟨true, "a.wav", "big", 52428801⟩ (EngineOutcome.raise "never")
          1 2 []).engineCalls = 0 :=
  (oversize_rejected_at_boundary ⟨true, "a.wav", "big", 52428801⟩
    (EngineOutcome.raise "never") 1 2 []).2.1 (by decide)

/-- C10: the model field of every health response is the constant string
whisper-large although the model loaded at startup is named turbo, and the
device field is exactly the device string fixed once at startup, whatever
the request-time GPU state, uptime or timestamp are. -/
theorem health_model_and_device_fields (startupGpu : Bool) (g : GpuState)
    (uptime : Nat) (ts : String) :
    lookupKey (health_check startupGpu g uptime ts).2 "model"
        = some (JsonVal.str "whisper-large")
      ∧ LOADED_MODEL_NAME = "turbo"
      ∧ "whisper-large" ≠ LOADED_MODEL_NAME
      ∧ lookupKey (health_check startupGpu g uptime ts).2 "device"
          = some (JsonVal.str (DEVICE startupGpu)) :=
  ⟨rfl, rfl, by decide, rfl⟩
